/-
Verification of the address-resolution and record-linkage pipeline
(innpulsa-analisis-exploracion): shallow embedding of the geocoder
(src/innpulsa/geolocation/geocoding.py), the LLM batch annotator
(src/innpulsa/geolocation/llm.py), the address processor
(src/innpulsa/geolocation/address_processor.py) and the record linker
(scripts/geolocation/merge_rues_zasca.py), together with theorems about
the specified properties.
-/
import Mathlib

/-! ## Geocoder: `GoogleGeocoder.geocode` and `_geocode_with_retry`
(src/innpulsa/geolocation/geocoding.py)

A provider interaction is modelled by the reply the single HTTP call
would produce.  Python exceptions that escape `geocode` are modelled with
`Except`: `aiohttp.ClientError` and `KeyError` are caught inside
`geocode` itself (`except (aiohttp.ClientError, KeyError)`), while a
`TimeoutError` and the `IndexError` from `data["results"][0]` on an
empty result list are not caught there. -/

/-- One element of the provider's `results` array.  `formatted` is the
`formatted_address` key, `location` the `geometry.location` lat/lng pair
(`none` models a missing key, which raises `KeyError` in Python). -/
structure GeoResult where
  formatted : Option String
  location : Option (ℚ × ℚ)
deriving DecidableEq, Repr

/-- Outcome of one HTTP geocoding call, as seen by `geocode`. -/
inductive GeoReply where
  /-- the HTTP call raises `aiohttp.ClientError` -/
  | clientError : GeoReply
  /-- the call raises a `TimeoutError` (not caught inside `geocode`) -/
  | timeoutExn : GeoReply
  /-- a JSON body without a `status` key (`KeyError`, caught) -/
  | noStatus : GeoReply
  /-- a JSON body with a `status` string and a `results` array -/
  | body (status : String) (results : List GeoResult) : GeoReply
deriving DecidableEq, Repr

/-- Exceptions that can escape the `geocode` coroutine. -/
inductive GeoExn where
  | timeout : GeoExn
  | indexError : GeoExn
deriving DecidableEq, Repr

/-- Python truthiness test used by `not all([address, country, area, city])`:
a component is falsy when it is `None` or the empty string. -/
def isFalsy : Option String → Bool
  | none => true
  | some s => s = ""

/-- `GoogleGeocoder.geocode`: returns `(formatted_address, (lat, lng))`,
`(None, None)` when a component is falsy, the status is not `"OK"`, the
call raises `aiohttp.ClientError`, or a needed key is absent (`KeyError`,
both caught); a timeout or the `IndexError` on `results[0]` escape. -/
def geocode (address country area city : Option String) (reply : GeoReply) :
    Except GeoExn (Option String × Option (ℚ × ℚ)) :=
  if isFalsy address ∨ isFalsy country ∨ isFalsy area ∨ isFalsy city then .ok (none, none)
  else
    match reply with
    | .clientError => .ok (none, none)
    | .timeoutExn => .error .timeout
    | .noStatus => .ok (none, none)
    | .body status results =>
      if status ≠ "OK" then .ok (none, none)
      else
        match results with
        | [] => .error .indexError
        | r :: _ =>
          match r.formatted, r.location with
          | some fa, some loc => .ok (some fa, some loc)
          | some _, none => .ok (none, none)
          | none, _ => .ok (none, none)

/-- The `while retries <= max_retries` loop of `_geocode_with_retry`.
`env n` is the reply of the `n`-th call; the `Nat` in the result counts
the calls actually issued.  `fuel` is the number of attempts still
admitted by the loop condition; when it runs out the function returns the
null result, as the code does after exhausting retries. -/
def retryGo (address country area city : Option String) (env : Nat → GeoReply) :
    Nat → Nat → Except GeoExn ((Option String × Option (ℚ × ℚ)) × Nat)
  | 0, calls => .ok ((none, none), calls)
  | fuel + 1, calls =>
    match geocode address country area city (env calls) with
    | .ok v => .ok (v, calls + 1)
    | .error .indexError => .error .indexError
    | .error .timeout => retryGo address country area city env fuel (calls + 1)

/-- `GoogleGeocoder._geocode_with_retry` for a single address: runs the
retry loop with `max_retries + 1` admitted attempts (retries 0..max). -/
def geocode_with_retry (address country area city : Option String) (env : Nat → GeoReply)
    (maxRetries : Nat) : Except GeoExn ((Option String × Option (ℚ × ℚ)) × Nat) :=
  retryGo address country area city env (maxRetries + 1) 0

/-! ## Geocoder batch: `GoogleGeocoder.geocode_batch` -/

/-- The per-id address-component dictionary passed to `geocode_batch`. -/
structure AddrComp where
  formatted : Option String
  country : Option String
  area : Option String
  city : Option String
deriving DecidableEq, Repr

/-- `all(v is not None for v in addr.values())`. -/
def allPresent (a : AddrComp) : Bool :=
  a.formatted.isSome && a.country.isSome && a.area.isSome && a.city.isSome

/-- `GoogleGeocoder.geocode_batch`: only the ids whose component
dictionary has no `None` value are turned into tasks; each task runs
`_geocode_with_retry` on its components.  `env id n` is the reply to the
`n`-th call for id `id`.  Results are keyed by id, so the set of keys is
independent of the completion order. -/
def geocode_batch (addresses : List (String × AddrComp)) (env : String → Nat → GeoReply)
    (maxRetries : Nat) :
    List (String × Except GeoExn ((Option String × Option (ℚ × ℚ)) × Nat)) :=
  (addresses.filter fun p => allPresent p.2).map fun p =>
    (p.1, geocode_with_retry p.2.formatted p.2.country p.2.area p.2.city (env p.1) maxRetries)

/-! ## Record linker: `haversine_distance` (scripts/geolocation/merge_rues_zasca.py) -/

/-- `math.radians`. -/
noncomputable def pyRadians (x : ℝ) : ℝ := x * Real.pi / 180

/-- `haversine_distance` from merge_rues_zasca.py: great-circle distance
in kilometres with mean Earth radius 6371 km (the script's intermediate
assignments `dlat`, `dlon`, `a`, `c`, `r` are inlined). -/
noncomputable def haversine_distance (lat1 lon1 lat2 lon2 : ℝ) : ℝ :=
  2 * Real.arcsin (Real.sqrt
    (Real.sin ((pyRadians lat2 - pyRadians lat1) / 2) ^ 2 +
     Real.cos (pyRadians lat1) * Real.cos (pyRadians lat2) *
       Real.sin ((pyRadians lon2 - pyRadians lon1) / 2) ^ 2)) * 6371

/-- Keys of an association list. -/
def keysOf {β : Type} (l : List (String × β)) : List String := l.map Prod.fst

/-! ## Record linker: `clean_zasca_nit` (scripts/geolocation/merge_rues_zasca.py)

ZASCA `nit` and `numberid_emp1` cells are modelled as `Option String`
(`none` is a pandas missing value); Python `str()` of a missing value is
the string "nan". -/

/-- Python `str()` on a possibly-missing cell. -/
def strOfOpt : Option String → String
  | some s => s
  | none => "nan"

/-- The fixed erroneous-NIT remap table of `clean_zasca_nit`. -/
def nit_remap : List (String × String) :=
  [("1020442629", "1036606519"),
   ("1090417350", "1005035428"),
   ("10987961739", "1098796173"),
   ("11070600400", "1107060040"),
   ("18217688", "88217688"),
   ("276054395", "27605439"),
   ("372749036", "37274903"),
   ("602815376", "60281537"),
   ("603198313", "60319831"),
   ("1017280244", "5297750")]

/-- First-match association lookup (the semantics of `Series.replace`
with a dict on exact cell values). -/
def assocLookup : List (String × String) → String → Option String
  | [], _ => none
  | (k, v) :: rest, x => if x = k then some v else assocLookup rest x

/-- `re.sub(r"([ -])\d", "", s)`: remove every left-to-right
non-overlapping occurrence of a space or hyphen followed by one digit. -/
def stripSepDigit : List Char → List Char
  | c :: d :: rest =>
    if (c = ' ' ∨ c = '-') ∧ d.isDigit then stripSepDigit rest
    else c :: stripSepDigit (d :: rest)
  | l => l

/-- Step 1 of `clean_zasca_nit`: `nit.fillna(numberid_emp1)`. -/
def fillnaNit (n nb : Option String) : Option String :=
  match n with
  | none => nb
  | some v => some v

/-- Step 2: if `str(nit)[:-1] == str(numberid_emp1)` replace `nit` with
`numberid_emp1`. -/
def checkDigitNit (n nb : Option String) : Option String :=
  if (strOfOpt n).dropRight 1 = strOfOpt nb then nb else n

/-- Step 3: `replace` with the fixed remap table. -/
def remapNit (n : Option String) : Option String :=
  match n with
  | none => none
  | some v =>
    match assocLookup nit_remap v with
    | some w => some w
    | none => some v

/-- Step 4: `re.sub(r"([ -])\d", "", str(x))` on non-missing cells. -/
def stripNit (n : Option String) : Option String :=
  match n with
  | none => none
  | some v => some (String.mk (stripSepDigit v.data))

/-- The per-row effect of `clean_zasca_nit` on (`nit`, `numberid_emp1`). -/
def clean_nit_value (n nb : Option String) : Option String :=
  stripNit (remapNit (checkDigitNit (fillnaNit n nb) nb))

/-- A ZASCA row as seen by `clean_zasca_nit`. -/
structure ZRow where
  nit : Option String
  numberid_emp1 : Option String
deriving DecidableEq, Repr

/-- `clean_zasca_nit`: the four column-wise steps applied in source
order. -/
def clean_zasca_nit (rows : List ZRow) : List ZRow :=
  ((((rows.map fun r => { r with nit := fillnaNit r.nit r.numberid_emp1 }).map
      fun r => { r with nit := checkDigitNit r.nit r.numberid_emp1 }).map
      fun r => { r with nit := remapNit r.nit }).map
      fun r => { r with nit := stripNit r.nit })

/-- Modelled from the claim's wording (not from the source): strip only
a trailing separator+digit suffix, leaving anything else intact. -/
def specTrailingStrip (s : String) : String :=
  match s.data.reverse with
  | d :: c :: _ =>
    if (c = ' ' ∨ c = '-') ∧ d.isDigit then String.mk (s.data.dropLast.dropLast) else s
  | _ => s

/-! ## Record linker: `merge_datasets` (scripts/geolocation/merge_rues_zasca.py) -/

/-- A row of the pivoted registry table `rues_with_coords`. -/
structure RuesRow where
  nit : String
  gmaps_address : Option String
  latitude : Option ℝ
  longitude : Option ℝ
  city : Option String
  ciiu_principal_2023 : Option Int

/-- A row of the participant table `zasca_with_coords`. -/
structure ZascaRow where
  nit : String
  gmaps_address : Option String
  latitude : Option ℝ
  longitude : Option ℝ
  city : Option String
  centro : Option String
  yearcohort : Option Int
  sales2022s : Option ℚ

/-- A row of the merged table `data_with_coords`. -/
structure DRow where
  up_id : String
  gmaps_address : Option String
  latitude : Option ℝ
  longitude : Option ℝ
  city : Option String
  ciiu_principal_2023 : Option Int
  centro : Option String
  yearcohort : Option Int
  sales2022s : Option ℚ

/-- `fillna` on a pair of cells: keep the first when present. -/
def orElseOpt {α : Type} (a b : Option α) : Option α :=
  match a with
  | some v => some v
  | none => b

/-- Python `str.capitalize`: first character upper-cased, the rest
lower-cased. -/
def pyCapitalize (s : String) : String :=
  match s.data with
  | [] => ""
  | c :: cs => String.mk (c.toUpper :: cs.map Char.toLower)

/-- `pd.merge(..., on=["nit"], how="outer")`: matched pairs in left-key
order, then unmatched right rows. -/
def outerMergeNit (rues : List RuesRow) (zasca : List ZascaRow) :
    List (Option RuesRow × Option ZascaRow) :=
  (rues.flatMap fun r =>
    let ms := zasca.filter fun z => z.nit = r.nit
    if ms.isEmpty then [(some r, none)] else ms.map fun z => (some r, some z))
  ++ ((zasca.filter fun z => rues.all fun r => r.nit ≠ z.nit).map fun z => (none, some z))

/-- Build one `data_with_coords` row from a merged pair: the
`latitude`/`longitude`/`gmaps_address`/`city` coalesce of the `_rues`
and `_zasca` suffixed columns, `city` capitalized when it is a string. -/
def coalesceRow (p : Option RuesRow × Option ZascaRow) : DRow :=
  { up_id :=
      match p.1 with
      | some r => r.nit
      | none =>
        match p.2 with
        | some z => z.nit
        | none => ""
    gmaps_address := orElseOpt (p.1.bind RuesRow.gmaps_address) (p.2.bind ZascaRow.gmaps_address)
    latitude := orElseOpt (p.1.bind RuesRow.latitude) (p.2.bind ZascaRow.latitude)
    longitude := orElseOpt (p.1.bind RuesRow.longitude) (p.2.bind ZascaRow.longitude)
    city := (orElseOpt (p.1.bind RuesRow.city) (p.2.bind ZascaRow.city)).map pyCapitalize
    ciiu_principal_2023 := p.1.bind RuesRow.ciiu_principal_2023
    centro := p.2.bind ZascaRow.centro
    yearcohort := p.2.bind ZascaRow.yearcohort
    sales2022s := p.2.bind ZascaRow.sales2022s }

/-- `drop_duplicates(subset=["nit"])`: keep the first row for each key. -/
def dropDupFirstBy (seen : List String) : List DRow → List DRow
  | [] => []
  | r :: rs =>
    if r.up_id ∈ seen then dropDupFirstBy seen rs
    else r :: dropDupFirstBy (r.up_id :: seen) rs

/-- `merge_datasets`: outer merge on `nit`, coalesce the suffixed
columns, drop duplicate keys keeping the first, rename `nit` to `up_id`
and discard the placeholder ids "0" and "1". -/
def merge_datasets (rues : List RuesRow) (zasca : List ZascaRow) : List DRow :=
  (dropDupFirstBy [] ((outerMergeNit rues zasca).map coalesceRow)).filter
    fun r => !(r.up_id == "0" || r.up_id == "1")

/-- Concrete registry fixture for witnesses: a duplicated key and a
placeholder key. -/
def ruesW : List RuesRow :=
  [⟨"7", some "addr7", none, none, some "bogota", some 1410⟩,
   ⟨"7", some "addr7b", none, none, some "bogota", some 1410⟩,
   ⟨"0", none, none, none, none, none⟩]

/-- Concrete participant fixture for witnesses. -/
def zascaW : List ZascaRow :=
  [⟨"8", some "addr8", none, none, some "medellin", some "Medellín", some 2022, some 5⟩]

/-! ## LLM batch annotator: `create_address_batches` and
`AddressProcessor._compile_results` (src/innpulsa/geolocation/llm.py,
src/innpulsa/geolocation/address_processor.py) -/

/-- Python dict assignment: update the value in place when the key
exists, else append. -/
def dictInsert (k v : String) : List (String × String) → List (String × String)
  | [] => [(k, v)]
  | (k2, v2) :: rest => if k2 = k then (k2, v) :: rest else (k2, v2) :: dictInsert k v rest

/-- `dict(zip(ids, addrs))`: later values win, keys keep their first
insertion position. -/
def dictOfPairs (pairs : List (String × String)) : List (String × String) :=
  pairs.foldl (fun d p => dictInsert p.1 p.2 d) []

/-- Fuelled chunking loop; the fuel (one unit per produced batch) makes
the recursion structural, `chunkList` supplies enough of it. -/
def chunkFuel {α : Type} (bs : Nat) : Nat → List α → List (List α)
  | 0, _ => []
  | _ + 1, [] => []
  | fuel + 1, a :: rest => (a :: rest).take bs :: chunkFuel bs fuel ((a :: rest).drop bs)

/-- `address_items[i : i + batch_size]` chunking of
`range(0, len(address_items), batch_size)` (a zero step raises in
Python; the model returns no batches). -/
def chunkList {α : Type} (bs : Nat) (l : List α) : List (List α) :=
  if bs = 0 then [] else chunkFuel bs l.length l

/-- Leading-whitespace removal, Python `str.strip`'s left half. -/
def dropLeadingWs (l : List Char) : List Char := l.dropWhile Char.isWhitespace

/-- Trailing-whitespace removal, Python `str.strip`'s right half. -/
def dropTrailingWs : List Char → List Char
  | [] => []
  | c :: rest =>
    match dropTrailingWs rest with
    | [] => if c.isWhitespace then [] else [c]
    | r => c :: r

/-- Python `str.strip()` on the character list of a string. -/
def pyStrip (l : List Char) : List Char := dropTrailingWs (dropLeadingWs l)

/-- An input row as `create_address_batches` sees it: the id column
`numberid_emp1` and the possibly-missing `full_address`. -/
structure AddrInput where
  numberid_emp1 : String
  full_address : Option String
deriving DecidableEq, Repr

/-- `create_address_batches`: return no batches when the id column is
absent; otherwise build the id→address dict (`full_address.fillna("")`),
drop blank addresses, and chunk into batches of `batch_size`. -/
def create_address_batches (hasIdColumn : Bool) (rows : List AddrInput) (batch_size : Nat) :
    List (List (String × String)) :=
  if !hasIdColumn then []
  else
    chunkList batch_size
      ((dictOfPairs (rows.map fun r => (r.numberid_emp1, r.full_address.getD ""))).filter
        fun p => !(pyStrip p.2.data).isEmpty)

/-- A per-id entry of a batch's JSON payload: either a JSON object with
the four normalized fields, or some other JSON value. -/
inductive BatchEntry where
  | dict (formatted_address country area city : Option String) : BatchEntry
  | nonDict : BatchEntry
deriving DecidableEq, Repr

/-- The parsed `response` of a batch file: a JSON object mapping ids to
entries, or some other JSON value. -/
inductive BatchResponse where
  | notDict : BatchResponse
  | dict (entries : List (String × BatchEntry)) : BatchResponse
deriving DecidableEq, Repr

/-- A batch file's content: unreadable/malformed (any exception while
loading or accessing required fields) or fully parsed. -/
inductive BatchContent where
  | malformed : BatchContent
  | parsed (response : BatchResponse) (input_addresses : List (String × String)) : BatchContent
deriving DecidableEq, Repr

/-- One `batch_*_{success,error}.json` file; the status is encoded in
the name, which is what the `batch_*_success.json` glob selects on. -/
structure BatchFile where
  success : Bool
  content : BatchContent
deriving DecidableEq, Repr

/-- A row of the compiled results table. -/
structure CompiledRecord where
  id : String
  raw_address : String
  formatted_address : Option String
  country : Option String
  area : Option String
  city : Option String
deriving DecidableEq, Repr

/-- `AddressProcessor._compile_results`: scan the success files, skip
malformed files and non-dict responses, skip non-dict per-id entries,
and emit one record per remaining id. -/
def compile_results (files : List BatchFile) : List CompiledRecord :=
  (files.filter fun f => f.success).flatMap fun f =>
    match f.content with
    | .malformed => []
    | .parsed .notDict _ => []
    | .parsed (.dict entries) inputs =>
      entries.flatMap fun pe =>
        match pe.2 with
        | .nonDict => []
        | .dict fa co ar ci =>
          [{ id := pe.1, raw_address := (assocLookup inputs pe.1).getD "",
             formatted_address := fa, country := co, area := ar, city := ci }]

/-! ## `AddressProcessor.process_addresses`
(src/innpulsa/geolocation/address_processor.py) -/

/-- The two datasets an `AddressProcessor` can be built for. -/
inductive Dataset where
  | rues : Dataset
  | zasca : Dataset
deriving DecidableEq, Repr

/-- Column effect of the dataset-specific adaptation step:
`build_rues_address` adds `full_address` and `numberid_emp1`;
`build_zasca_address` only warns and leaves the frame unchanged. -/
def adaptColumns (ds : Dataset) (cols : List String) : List String :=
  match ds with
  | .rues => "full_address" :: "numberid_emp1" :: cols
  | .zasca => cols

/-- `AddressProcessor.process_addresses`, contract-level: return `None`
when `GEMINI_API_KEY` is unset; otherwise adapt the columns and raise
`ValueError` when `full_address` is still absent; else the compiled
table (possibly `None`) is returned.  `compiled` stands for the outcome
of `normalise_addresses_using_llm` + `_compile_results`. -/
def process_addresses {α : Type} (apiKey : Option String) (ds : Dataset) (cols : List String)
    (compiled : Option α) : Except String (Option α) :=
  match apiKey with
  | none => .ok none
  | some _ =>
    if "full_address" ∈ adaptColumns ds cols then .ok compiled
    else .error "missing full_address column in input data"

/-! ## Record linker: control-unit center assignment and cohort backfill
(scripts/geolocation/merge_rues_zasca.py)

`ciiu_principal_2023` values and the codes of the per-center top-3 lists
are compared through Python `str()` on both sides; since both sides
stringify values of the same numeric column, the comparison is modelled
as equality of the underlying values.  `row.name` (the pandas index
label used for the alternating tie-break) is modelled as the row's
position. -/

/-- The `centros_zasca` dict: name → [lat, lon], in insertion order. -/
noncomputable def centros_zasca : List (String × ℝ × ℝ) :=
  [("Bucaramanga", 7.1049364854763475, -73.12383197704348),
   ("Manrique", 6.284881727521926, -75.54409932364932),
   ("Medellín", 6.232088566149681, -75.56902649888393),
   ("Cúcuta", 7.829409950541552, -72.46036608947021),
   ("20Julio", 4.569429291819494, -74.09478949758527),
   ("Baranoa", 10.803854499386958, -74.91244952786113),
   ("Cali Norte", 3.4703660708293342, -76.53109251974698),
   ("Cartagena", 10.408413725517383, -75.46504629117649),
   ("Caucasia", 7.996741312367327, -75.19635027124215),
   ("Ciudad Bolivar", 4.543213679818289, -74.1469410119057),
   ("Manizales", 5.063846037654722, -75.50186555759247),
   ("Riohacha", 11.539682147003058, -72.91511631324943),
   ("Suba", 4.7461323779336295, -74.08267727408058)]

/-- Generic first-match association lookup. -/
def assocFind {β : Type} : List (String × β) → String → Option β
  | [], _ => none
  | (k, v) :: rest, x => if x = k then some v else assocFind rest x

/-- `dict.get(key, default)`. -/
def assocGetD {β : Type} (l : List (String × β)) (x : String) (d : β) : β :=
  (assocFind l x).getD d

/-- Distinct values of a column in first-appearance order. -/
def distinctFirst (l : List Int) : List Int :=
  l.foldl (fun acc v => if v ∈ acc then acc else acc ++ [v]) []

/-- Distinct strings in first-appearance order (`Series.unique`). -/
def distinctFirstStr (l : List String) : List String :=
  l.foldl (fun acc v => if v ∈ acc then acc else acc ++ [v]) []

/-- Insert into a count-descending list, keeping earlier values first on
ties (`value_counts` sorts by count descending; its tie order is not
load-bearing here and is modelled as first-appearance order). -/
def insertByCountDesc (x : Int × Nat) : List (Int × Nat) → List (Int × Nat)
  | [] => [x]
  | y :: ys => if y.2 < x.2 then x :: y :: ys else y :: insertByCountDesc x ys

/-- `value_counts().head(3).index.tolist()`: the three most frequent
values of a column, missing values already removed. -/
def value_counts_top3 (l : List Int) : List Int :=
  ((((distinctFirst l).map fun v => (v, l.count v)).foldr insertByCountDesc []).take 3).map
    Prod.fst

/-- `get_centro_ciiu_mapping`: per center, the top-3
`ciiu_principal_2023` codes among the ZASCA participants (rows with a
non-null `sales2022s`) enrolled at that center. -/
noncomputable def get_centro_ciiu_mapping (rows : List DRow) : List (String × List Int) :=
  centros_zasca.map fun c =>
    (c.1, value_counts_top3
      (((rows.filter fun r => r.sales2022s.isSome).filter
        fun r => r.centro == some c.1).filterMap DRow.ciiu_principal_2023))

/-- `str(ciiu_principal) if not pd.isna(...) else None` followed by the
membership test against the stringified top codes. -/
def ciiuMatches (ciiu : Option Int) (tops : List Int) : Bool :=
  match ciiu with
  | none => false
  | some c => tops.contains c

/-- The float distance of the loop body: `none` models the NaN produced
by `haversine_distance` on a missing coordinate (every comparison with
it is false, as in Python). -/
noncomputable def optDistance (location : Option ℝ × Option ℝ) (clat clon : ℝ) : Option ℝ :=
  match location with
  | (some la, some lo) => some (haversine_distance la lo clat clon)
  | _ => none

open scoped Classical in
/-- One iteration of the `for centro_name, coords in centros_dict`
loop: skip centers with no top codes, and for a CIIU match record the
center in `matching_centros` and update the running minimum. -/
noncomputable def centroStep (location : Option ℝ × Option ℝ) (ciiu : Option Int)
    (mapping : List (String × List Int))
    (acc : Option (String × ℝ) × List (String × Option ℝ)) (c : String × ℝ × ℝ) :
    Option (String × ℝ) × List (String × Option ℝ) :=
  if assocGetD mapping c.1 [] = [] then acc
  else if ciiuMatches ciiu (assocGetD mapping c.1 []) then
    match optDistance location c.2.1 c.2.2 with
    | none => (acc.1, acc.2 ++ [(c.1, none)])
    | some dv =>
      match acc.1 with
      | none => (some (c.1, dv), acc.2 ++ [(c.1, some dv)])
      | some (bn, bd) =>
        if dv < bd then (some (c.1, dv), acc.2 ++ [(c.1, some dv)])
        else (some (bn, bd), acc.2 ++ [(c.1, some dv)])
  else acc

open scoped Classical in
/-- Stable insertion for `matching_centros.sort(key=itemgetter(1))`
(only reached when `row_index is None`, which `assign_control_centros`
never passes; incomparable NaN distances keep their relative order). -/
noncomputable def insertByOptDist (x : String × Option ℝ) :
    List (String × Option ℝ) → List (String × Option ℝ)
  | [] => [x]
  | y :: ys =>
    match x.2, y.2 with
    | some dx, some dy => if dx < dy then x :: y :: ys else y :: insertByOptDist x ys
    | _, _ => y :: insertByOptDist x ys

/-- The tail of `find_closest_centro_with_ciiu_match` after the loop:
the special handling for the co-located Manrique/Medellín centers
(alternating assignment on the row index when both match), else the
closest match. -/
noncomputable def fcFinish (res : Option (String × ℝ) × List (String × Option ℝ))
    (rowIndex : Option Nat) : Option String :=
  if res.1.map Prod.fst = some "Manrique" ∨ res.1.map Prod.fst = some "Medellín" then
    if 2 ≤ (res.2.filter fun p => p.1 == "Manrique" || p.1 == "Medellín").length then
      match rowIndex with
      | some i => if i % 2 = 0 then some "Manrique" else some "Medellín"
      | none =>
        (((res.2.filter fun p => p.1 == "Manrique" || p.1 == "Medellín").foldr
          insertByOptDist []).head?).map Prod.fst
    else res.1.map Prod.fst
  else res.1.map Prod.fst

/-- `find_closest_centro_with_ciiu_match`: nearest center among those
whose top-3 CIIU codes contain the business's code, with the
Manrique/Medellín alternating tie-break on the row index. -/
noncomputable def find_closest_centro_with_ciiu_match (location : Option ℝ × Option ℝ)
    (ciiu : Option Int) (mapping : List (String × List Int)) (rowIndex : Option Nat) :
    Option String :=
  fcFinish (centros_zasca.foldl (centroStep location ciiu mapping) (none, [])) rowIndex

/-- `assign_control_centros`: rows with a null `centro` (control units)
get the closest CIIU-matching center; treated rows are unchanged. -/
noncomputable def assign_control_centros (rows : List DRow)
    (mapping : List (String × List Int)) : List DRow :=
  rows.enum.map fun p =>
    if p.2.centro.isNone then
      { p.2 with centro := (find_closest_centro_with_ciiu_match (p.2.latitude, p.2.longitude)
          p.2.ciiu_principal_2023 mapping (some p.1)) }
    else p.2

/-- `Series.min` over the non-null values of a column. -/
def listMinInt (l : List Int) : Option Int :=
  l.foldl (fun acc v =>
    match acc with
    | none => some v
    | some m => some (min m v)) none

/-- The `centro_yearcohort_mapping` dict: for every non-null center of
the table, the minimum non-null `yearcohort` among its rows (`none`
models the NaN min of an all-null column). -/
noncomputable def centro_yearcohort_mapping (rows : List DRow) : List (String × Option Int) :=
  (distinctFirstStr (rows.filterMap DRow.centro)).map fun c =>
    (c, listMinInt ((rows.filter fun r => r.centro == some c).filterMap DRow.yearcohort))

/-- `assign_yearcohorts`: rows with a null `yearcohort` get their
center's earliest participant cohort (`Series.map` of the dict; a null
center maps to null). -/
noncomputable def assign_yearcohorts (rows : List DRow) : List DRow :=
  rows.map fun r =>
    if r.yearcohort.isNone then
      { r with yearcohort :=
          match r.centro with
          | none => none
          | some c => (assocFind (centro_yearcohort_mapping rows) c).getD none }
    else r

/-- C1 counterexample fixture: a single control unit whose industry
code (9999) is in no center's top-3 list (there are no participants at
all, so every list is empty). -/
noncomputable def tC1 : List DRow :=
  [⟨"900123", some "addr", some 4.6, some (-74.1), some "Bogota", some 9999, none, none, none⟩]

/-- C1 amended-claim fixture: one participant at Suba (industry 1410,
cohort 2022) and one control unit with the same industry code. -/
noncomputable def rowsC1 : List DRow :=
  [⟨"p1", some "addr p", some 4.74, some (-74.08), some "Bogota", some 1410, some "Suba",
    some 2022, some 10⟩,
   ⟨"c1", some "addr c", some 4.6, some (-74.1), some "Bogota", some 1410, none, none, none⟩]

/-! ## LLM reply cleaning: `clean_json_response`
(src/innpulsa/geolocation/llm.py)

`str.replace` scans left to right over the original string, removing
non-overlapping occurrences; the two fence removals and the strip are
modelled on character lists.  `json.loads` is modelled by a fuelled
recursive-descent JSON syntax checker. -/

/-- The backtick character. -/
def tick : Char := Char.ofNat 96

/-- `'\x7b'`, the opening curly brace. -/
def objOpen : Char := Char.ofNat 123

/-- `'\x7d'`, the closing curly brace. -/
def objClose : Char := Char.ofNat 125

/-- `replace("```json", "")`. -/
def stripJsonFence : List Char → List Char
  | a :: b :: c :: d :: e :: f :: g :: t =>
    if a = tick ∧ b = tick ∧ c = tick ∧ d = 'j' ∧ e = 's' ∧ f = 'o' ∧ g = 'n' then
      stripJsonFence t
    else a :: stripJsonFence (b :: c :: d :: e :: f :: g :: t)
  | l => l

/-- `replace("```", "")`. -/
def stripFence : List Char → List Char
  | a :: b :: c :: t =>
    if a = tick ∧ b = tick ∧ c = tick then stripFence t
    else a :: stripFence (b :: c :: t)
  | l => l

/-- Length of the run of backticks at the head of the list. -/
def leadTicks : List Char → Nat
  | c :: t => if c = tick then leadTicks t + 1 else 0
  | [] => 0

/-- The list contains no three consecutive backticks. -/
def NoTriple (l : List Char) : Prop :=
  ∀ u v : List Char, l ≠ u ++ tick :: tick :: tick :: v

/-- JSON whitespace. -/
def jsonWs (c : Char) : Bool := c = ' ' ∨ c = '\t' ∨ c = '\n' ∨ c = '\r'

/-- Skip JSON whitespace. -/
def skipJsonWs (l : List Char) : List Char := l.dropWhile jsonWs

/-- Expect a fixed literal, returning the rest of the input. -/
def parseLit : List Char → List Char → Option (List Char)
  | [], rest => some rest
  | c :: cs, d :: rest => if d = c then parseLit cs rest else none
  | _ :: _, [] => none

/-- Consume a JSON string body after the opening quote. -/
def parseStringBody : Nat → List Char → Option (List Char)
  | 0, _ => none
  | _ + 1, [] => none
  | fuel + 1, c :: rest =>
    if c = '"' then some rest
    else if c = '\\' then
      match rest with
      | [] => none
      | _ :: rest2 => parseStringBody fuel rest2
    else parseStringBody fuel rest

/-- One or more digits, consuming the maximal run. -/
def parseDigits : List Char → Option (List Char)
  | c :: rest => if c.isDigit then some (rest.dropWhile Char.isDigit) else none
  | [] => none

/-- Optional fraction part. -/
def parseFrac : List Char → Option (List Char)
  | c :: rest => if c = '.' then parseDigits rest else some (c :: rest)
  | [] => some []

/-- Optional exponent part. -/
def parseExp : List Char → Option (List Char)
  | c :: rest =>
    if c = 'e' ∨ c = 'E' then
      match rest with
      | d :: rest2 => if d = '+' ∨ d = '-' then parseDigits rest2 else parseDigits (d :: rest2)
      | [] => none
    else some (c :: rest)
  | [] => some []

/-- A JSON number. -/
def parseNumber (l : List Char) : Option (List Char) :=
  (parseDigits (match l with
    | c :: rest => if c = '-' then rest else c :: rest
    | [] => [])).bind fun l2 => (parseFrac l2).bind parseExp

/-- Parser modes: a value, the items of an array after the first comma
position, the members of an object. -/
inductive PMode where
  | value : PMode
  | arrItems : PMode
  | objItems : PMode

/-- Fuelled recursive-descent JSON checker, returning the unconsumed
input on success. -/
def parseJ : Nat → PMode → List Char → Option (List Char)
  | 0, _, _ => none
  | fuel + 1, .value, l =>
    match skipJsonWs l with
    | [] => none
    | c :: rest =>
      if c = '"' then parseStringBody (rest.length + 1) rest
      else if c = 't' then parseLit ['r', 'u', 'e'] rest
      else if c = 'f' then parseLit ['a', 'l', 's', 'e'] rest
      else if c = 'n' then parseLit ['u', 'l', 'l'] rest
      else if c = '[' then
        match skipJsonWs rest with
        | d :: rest2 => if d = ']' then some rest2 else parseJ fuel .arrItems (d :: rest2)
        | [] => none
      else if c = objOpen then
        match skipJsonWs rest with
        | d :: rest2 => if d = objClose then some rest2 else parseJ fuel .objItems (d :: rest2)
        | [] => none
      else parseNumber (c :: rest)
  | fuel + 1, .arrItems, l =>
    match parseJ fuel .value l with
    | none => none
    | some l2 =>
      match skipJsonWs l2 with
      | c :: rest => if c = ',' then parseJ fuel .arrItems rest
                     else if c = ']' then some rest else none
      | [] => none
  | fuel + 1, .objItems, l =>
    match skipJsonWs l with
    | c :: rest =>
      if c = '"' then
        match parseStringBody (rest.length + 1) rest with
        | none => none
        | some l2 =>
          match skipJsonWs l2 with
          | d :: rest2 =>
            if d = ':' then
              match parseJ fuel .value rest2 with
              | none => none
              | some l3 =>
                match skipJsonWs l3 with
                | e :: rest3 => if e = ',' then parseJ fuel .objItems rest3
                                else if e = objClose then some rest3 else none
                | [] => none
            else none
          | [] => none
      else none
    | [] => none

/-- `json.loads` as a Boolean test: one JSON value followed only by
whitespace. -/
def isValidJson (l : List Char) : Bool :=
  match parseJ (2 * l.length + 2) .value l with
  | some rest => (skipJsonWs rest).isEmpty
  | none => false

/-- `clean_json_response`: remove the markdown fence markers, strip
whitespace, and fail (`json.JSONDecodeError`) unless the result parses
as JSON. -/
def clean_json_response (s : String) : Except Unit String :=
  if isValidJson (pyStrip (stripFence (stripJsonFence s.data))) then
    .ok (String.mk (pyStrip (stripFence (stripJsonFence s.data))))
  else .error ()

/-- Concrete batch-file fixture for witnesses. -/
def filesW : List BatchFile :=
  [⟨true, .parsed
    (.dict [("a", .dict (some "Calle 1 Std") (some "CO") (some "Antioquia") (some "Medellin"))])
    [("a", "Calle 1")]⟩,
   ⟨false, .malformed⟩]

/-- The record `_compile_results` produces from `filesW`. -/
def recW : CompiledRecord :=
  ⟨"a", "Calle 1", some "Calle 1 Std", some "CO", some "Antioquia", some "Medellin"⟩

/-! ## Theorems for the geocoder claims -/

/-- C5: for every input to `geocode` the returned pair is both-null or
both-present; any falsy component forces `(None, None)`; a non-`"OK"`
status forces `(None, None)`; with all components present and an `"OK"`
status whose first result carries an address and a location, the result
is that address and that location. -/
theorem geocode_pairing_contract (address country area city : Option String)
    (reply : GeoReply) :
    (∀ out, geocode address country area city reply = .ok out →
      (out.1 = none ↔ out.2 = none)) ∧
    ((isFalsy address ∨ isFalsy country ∨ isFalsy area ∨ isFalsy city) →
      geocode address country area city reply = .ok (none, none)) ∧
    (∀ status results, status ≠ "OK" →
      geocode address country area city (.body status results) = .ok (none, none)) ∧
    (¬(isFalsy address ∨ isFalsy country ∨ isFalsy area ∨ isFalsy city) →
      ∀ fa loc rs, geocode address country area city (.body "OK" (⟨some fa, some loc⟩ :: rs)) =
        .ok (some fa, some loc)) := by
  refine ⟨?_, ?_, ?_, ?_⟩
  · intro out h
    unfold geocode at h
    split at h
    · injection h with h2
      subst h2
      simp
    · cases reply with
      | clientError =>
        injection h with h2
        subst h2
        simp
      | timeoutExn => simp at h
      | noStatus =>
        injection h with h2
        subst h2
        simp
      | body status results =>
        simp only at h
        split at h
        · injection h with h2
          subst h2
          simp
        · cases results with
          | nil => simp at h
          | cons r rs =>
            rcases r with ⟨fa, loc⟩
            cases fa <;> cases loc <;> simp only at h <;>
              (injection h with h2; subst h2; simp)
  · intro h
    unfold geocode
    rw [if_pos h]
  · intro status results h
    unfold geocode
    split
    · rfl
    · simp only
      rw [if_pos h]
  · intro h fa loc rs
    unfold geocode
    rw [if_neg h]
    simp

/-- Witness for C5 at concrete inputs. -/
theorem geocode_pairing_contract_witness :
    (∀ out, geocode (some "Calle 1") (some "Colombia") (some "Antioquia") (some "Medellin")
      (.body "OK" [⟨some "Calle 1, Medellin", some (61, -75)⟩]) = .ok out →
      (out.1 = none ↔ out.2 = none)) ∧
    geocode none (some "Colombia") (some "Antioquia") (some "Medellin") .clientError =
      .ok (none, none) ∧
    geocode (some "Calle 1") (some "Colombia") (some "Antioquia") (some "Medellin")
      (.body "ZERO_RESULTS" []) = .ok (none, none) ∧
    geocode (some "Calle 1") (some "Colombia") (some "Antioquia") (some "Medellin")
      (.body "OK" [⟨some "Calle 1, Medellin", some (61, -75)⟩]) =
      .ok (some "Calle 1, Medellin", some (61, -75)) := by
  refine ⟨?_, ?_, ?_, ?_⟩
  · exact (geocode_pairing_contract (some "Calle 1") (some "Colombia") (some "Antioquia")
      (some "Medellin") (.body "OK" [⟨some "Calle 1, Medellin", some (61, -75)⟩])).1
  · exact (geocode_pairing_contract none (some "Colombia") (some "Antioquia")
      (some "Medellin") .clientError).2.1 (by decide)
  · exact (geocode_pairing_contract (some "Calle 1") (some "Colombia") (some "Antioquia")
      (some "Medellin") (.body "ZERO_RESULTS" [])).2.2.1 "ZERO_RESULTS" [] (by decide)
  · exact (geocode_pairing_contract (some "Calle 1") (some "Colombia") (some "Antioquia")
      (some "Medellin") (.body "OK" [⟨some "Calle 1, Medellin", some (61, -75)⟩])).2.2.2
      (by decide) "Calle 1, Medellin" (61, -75) []

/-- C4: `geocode` itself catches `aiohttp.ClientError` and `KeyError` and
returns `(None, None)`, so `_geocode_with_retry` records the null result
after a single transport failure without issuing any retry — even when a
second attempt would have succeeded.  By contrast a `TimeoutError`, which
escapes `geocode`, is retried and the second attempt succeeds. -/
theorem geocode_with_retry_transport_failure_not_retried :
    geocode_with_retry (some "Calle 1") (some "Colombia") (some "Antioquia") (some "Medellin")
      (fun n => if n = 0 then .clientError
                else .body "OK" [⟨some "Calle 1, Medellin", some (61, -75)⟩]) 3 =
      .ok ((none, none), 1) ∧
    geocode_with_retry (some "Calle 1") (some "Colombia") (some "Antioquia") (some "Medellin")
      (fun n => if n = 0 then .timeoutExn
                else .body "OK" [⟨some "Calle 1, Medellin", some (61, -75)⟩]) 3 =
      .ok ((some "Calle 1, Medellin", some (61, -75)), 2) := by
  constructor <;> rfl

/-- In a list with distinct keys, a key determines its value. -/
theorem keys_nodup_value_unique {β : Type} {l : List (String × β)}
    (hnd : (l.map Prod.fst).Nodup) {k : String} {a b : β}
    (ha : (k, a) ∈ l) (hb : (k, b) ∈ l) : a = b := by
  induction l with
  | nil => cases ha
  | cons q qs ih =>
    rw [List.map_cons, List.nodup_cons] at hnd
    rcases List.mem_cons.mp ha with h1a | h1b
    · rcases List.mem_cons.mp hb with h2a | h2b
      · rw [← h1a] at h2a
        exact ((Prod.mk.injEq _ _ _ _).mp h2a.symm).2
      · exact absurd (List.mem_map.mpr ⟨(k, b), h2b, by rw [← h1a]⟩) hnd.1
    · rcases List.mem_cons.mp hb with h2a | h2b
      · exact absurd (List.mem_map.mpr ⟨(k, a), h1b, by rw [← h2a]⟩) hnd.1
      · exact ih hnd.2 h1b h2b

/-- C10: the results of `geocode_batch` have exactly the keys of the
inputs whose components are all non-null; an id with a null component is
absent from the results (given the input ids are distinct, as they are in
a Python dict); and every checkpoint — a sublist of the accumulated
results — only holds such keys. -/
theorem geocode_batch_keys (addresses : List (String × AddrComp))
    (env : String → Nat → GeoReply) (maxRetries : Nat) :
    keysOf (geocode_batch addresses env maxRetries) =
      keysOf (addresses.filter fun p => allPresent p.2) ∧
    (∀ id a, (addresses.map Prod.fst).Nodup → (id, a) ∈ addresses → allPresent a = false →
      id ∉ keysOf (geocode_batch addresses env maxRetries)) ∧
    (∀ cp, List.Sublist cp (geocode_batch addresses env maxRetries) →
      ∀ id ∈ keysOf cp, id ∈ keysOf (addresses.filter fun p => allPresent p.2)) := by
  have hkeys : keysOf (geocode_batch addresses env maxRetries) =
      keysOf (addresses.filter fun p => allPresent p.2) := by
    unfold geocode_batch keysOf
    rw [List.map_map]
    induction (addresses.filter fun p => allPresent p.2) with
    | nil => rfl
    | cons q qs ih => simp [ih]
  refine ⟨hkeys, ?_, ?_⟩
  · intro id a hnd hmem hfalse hin
    rw [hkeys] at hin
    unfold keysOf at hin
    rw [List.mem_map] at hin
    obtain ⟨p, hp, hfst⟩ := hin
    rw [List.mem_filter] at hp
    obtain ⟨hpa, hptrue⟩ := hp
    have hpq : p.2 = a := by
      have hpa' : (id, p.2) ∈ addresses := by
        rw [← hfst]
        exact hpa
      exact @keys_nodup_value_unique _ _ hnd id p.2 a hpa' hmem
    rw [hpq, hfalse] at hptrue
    exact absurd hptrue (by decide)
  · intro cp hcp id hid
    unfold keysOf at hid
    rw [List.mem_map] at hid
    obtain ⟨p, hp, hfst⟩ := hid
    have hpmem : p ∈ geocode_batch addresses env maxRetries := hcp.subset hp
    unfold geocode_batch at hpmem
    rw [List.mem_map] at hpmem
    obtain ⟨q, hq, hqe⟩ := hpmem
    unfold keysOf
    rw [List.mem_map]
    exact ⟨q, hq, by rw [← hfst, ← hqe]⟩

/-- Witness for C10 at a concrete input: the id with a null city
component is dropped from the results and from a checkpoint. -/
theorem geocode_batch_keys_witness :
    (["a", "b"].Nodup ∧
      "b" ∉ keysOf (geocode_batch
        [("a", ⟨some "x", some "CO", some "Ant", some "Med"⟩),
         ("b", ⟨some "y", some "CO", some "Ant", none⟩)]
        (fun _ _ => .clientError) 3)) ∧
    (∀ id ∈ keysOf [("a", (Except.ok ((none, none), 1) :
        Except GeoExn ((Option String × Option (ℚ × ℚ)) × Nat)))],
      id ∈ keysOf ([("a", ⟨some "x", some "CO", some "Ant", some "Med"⟩),
         ("b", ⟨some "y", some "CO", some "Ant", none⟩)].filter
           fun p => allPresent p.2)) := by
  constructor
  · refine ⟨by decide, ?_⟩
    exact (geocode_batch_keys
      [("a", ⟨some "x", some "CO", some "Ant", some "Med"⟩),
       ("b", ⟨some "y", some "CO", some "Ant", none⟩)]
      (fun _ _ => .clientError) 3).2.1 "b" ⟨some "y", some "CO", some "Ant", none⟩
      (by decide) (by simp) (by decide)
  · exact (geocode_batch_keys
      [("a", ⟨some "x", some "CO", some "Ant", some "Med"⟩),
       ("b", ⟨some "y", some "CO", some "Ant", none⟩)]
      (fun _ _ => .clientError) 3).2.2
      [("a", Except.ok ((none, none), 1))] (List.Sublist.refl _)

/-- C9: the haversine function of the record linker vanishes on equal
points, is symmetric, and two points one degree of latitude apart on the
same meridian are at distance within 1% of 111 km. -/
theorem haversine_distance_properties :
    (∀ lat lon : ℝ, haversine_distance lat lon lat lon = 0) ∧
    (∀ lat1 lon1 lat2 lon2 : ℝ,
      haversine_distance lat1 lon1 lat2 lon2 = haversine_distance lat2 lon2 lat1 lon1) ∧
    |haversine_distance 1 0 0 0 - 111| ≤ 111 / 100 := by
  refine ⟨?_, ?_, ?_⟩
  · intro lat lon
    unfold haversine_distance
    simp
  · intro lat1 lon1 lat2 lon2
    unfold haversine_distance
    have h1 : (pyRadians lat1 - pyRadians lat2) / 2 = -((pyRadians lat2 - pyRadians lat1) / 2) := by
      ring
    have h2 : (pyRadians lon1 - pyRadians lon2) / 2 = -((pyRadians lon2 - pyRadians lon1) / 2) := by
      ring
    rw [h1, h2]
    simp only [Real.sin_neg]
    ring_nf
  · have hpos : (0 : ℝ) < Real.pi := Real.pi_pos
    have harg : haversine_distance 1 0 0 0 = Real.pi / 180 * 6371 := by
      unfold haversine_distance pyRadians
      rw [show ((0 : ℝ) * Real.pi / 180 - 1 * Real.pi / 180) / 2 = -(Real.pi / 360) from by ring]
      rw [show ((0 : ℝ) * Real.pi / 180 - 0 * Real.pi / 180) / 2 = 0 from by ring]
      rw [Real.sin_neg, Real.sin_zero]
      rw [show (-Real.sin (Real.pi / 360)) ^ 2 +
        Real.cos (1 * Real.pi / 180) * Real.cos (0 * Real.pi / 180) * 0 ^ 2 =
        Real.sin (Real.pi / 360) ^ 2 from by ring]
      have hsin_nonneg : 0 ≤ Real.sin (Real.pi / 360) := by
        apply Real.sin_nonneg_of_nonneg_of_le_pi
        · positivity
        · nlinarith
      rw [Real.sqrt_sq hsin_nonneg]
      rw [Real.arcsin_sin (by nlinarith) (by nlinarith)]
      ring
    rw [harg, abs_le]
    constructor
    · nlinarith [Real.pi_gt_d6]
    · nlinarith [Real.pi_lt_d6]

/-! ## Theorems for `clean_zasca_nit` (C3) -/

/-- C3 counterexample: the suffix-stripping regex `([ -])\d` removes a
separator+digit occurrence anywhere, not only trailing ones; "12-345"
has no trailing suffix yet becomes "1245". -/
theorem clean_zasca_nit_nontrailing_counterexample :
    clean_zasca_nit [⟨some "12-345", some "99"⟩] = [⟨some "1245", some "99"⟩] ∧
    specTrailingStrip "12-345" = "12-345" ∧
    (some "1245" : Option String) ≠ some "12-345" := by
  refine ⟨?_, ?_, ?_⟩ <;> decide

/-- C3 amended: `clean_zasca_nit` applies per row, in order, the fill
from `numberid_emp1`, the check-digit preference, the fixed remap table
(whose images, not originals, reach the join key), and then removes
every left-to-right occurrence of a space or hyphen followed by one
digit — trailing or not; "123456789-3" normalizes to "123456789". -/
theorem clean_zasca_nit_amended (rows : List ZRow) :
    (clean_zasca_nit rows =
      rows.map fun r => ⟨clean_nit_value r.nit r.numberid_emp1, r.numberid_emp1⟩) ∧
    (∀ nb, clean_nit_value none nb = clean_nit_value nb nb) ∧
    (∀ n nb, (strOfOpt (fillnaNit n nb)).dropRight 1 = strOfOpt nb →
      clean_nit_value n nb = stripNit (remapNit nb)) ∧
    (∀ p ∈ nit_remap, clean_nit_value (some p.1) none = some p.2 ∧ p.2 ≠ p.1) ∧
    clean_nit_value (some "123456789-3") (some "0") = some "123456789" ∧
    String.mk (stripSepDigit ("12-345".data)) = "1245" := by
  refine ⟨?_, ?_, ?_, ?_, ?_, ?_⟩
  · unfold clean_zasca_nit
    rw [List.map_map, List.map_map, List.map_map]
    induction rows with
    | nil => rfl
    | cons r rs ih =>
      rw [List.map_cons, List.map_cons, ih]
      rfl
  · intro nb
    cases nb <;> rfl
  · intro n nb h
    unfold clean_nit_value checkDigitNit
    rw [if_pos h]
  · decide
  · decide
  · decide

/-- Witness for the amended C3 at concrete inputs. -/
theorem clean_zasca_nit_amended_witness :
    clean_nit_value (some "1234") (some "123") = stripNit (remapNit (some "123")) ∧
    (clean_nit_value (some "18217688") none = some "88217688" ∧
      ("88217688" : String) ≠ "18217688") :=
  ⟨(clean_zasca_nit_amended []).2.2.1 (some "1234") (some "123") (by decide),
   (clean_zasca_nit_amended []).2.2.2.1 ("18217688", "88217688") (by decide)⟩

/-! ## Theorems for `merge_datasets` (C2) -/

/-- `dropDupFirstBy` yields distinct keys, none of them in `seen`. -/
theorem dropDupFirstBy_nodup (l : List DRow) : ∀ seen,
    ((dropDupFirstBy seen l).map DRow.up_id).Nodup ∧
    ∀ s ∈ seen, s ∉ (dropDupFirstBy seen l).map DRow.up_id := by
  induction l with
  | nil =>
    intro seen
    exact ⟨List.nodup_nil, fun s _ h => by cases h⟩
  | cons r rs ih =>
    intro seen
    simp only [dropDupFirstBy]
    split
    · exact ih seen
    · rename_i h
      have ih' := ih (r.up_id :: seen)
      constructor
      · rw [List.map_cons, List.nodup_cons]
        exact ⟨ih'.2 r.up_id (List.mem_cons_self _ _), ih'.1⟩
      · intro s hs
        rw [List.map_cons, List.mem_cons]
        rintro (rfl | hmem)
        · exact h hs
        · exact ih'.2 s (List.mem_cons_of_mem _ hs) hmem

/-- C2: for every pair of input tables, `merge_datasets` returns exactly
one row per distinct `up_id` (duplicates dropped keeping the first), and
no row carries the placeholder ids "0" or "1". -/
theorem merge_datasets_cardinality (rues : List RuesRow) (zasca : List ZascaRow) :
    ((merge_datasets rues zasca).map DRow.up_id).Nodup ∧
    ∀ s ∈ (merge_datasets rues zasca).map DRow.up_id, s ≠ "0" ∧ s ≠ "1" := by
  constructor
  · have hsub : List.Sublist (merge_datasets rues zasca)
        (dropDupFirstBy [] ((outerMergeNit rues zasca).map coalesceRow)) :=
      List.filter_sublist _
    exact List.Nodup.sublist (hsub.map DRow.up_id)
      (dropDupFirstBy_nodup ((outerMergeNit rues zasca).map coalesceRow) []).1
  · intro s hs
    rw [List.mem_map] at hs
    obtain ⟨r, hr, rfl⟩ := hs
    unfold merge_datasets at hr
    rw [List.mem_filter] at hr
    have hpred := hr.2
    simp only [Bool.not_eq_true', Bool.or_eq_false_iff, beq_eq_false_iff_ne, ne_eq] at hpred
    exact hpred

/-- Witness for C2 at a concrete pair of tables with a duplicated key
and a placeholder key. -/
theorem merge_datasets_cardinality_witness :
    ("7" : String) ≠ "0" ∧ ("7" : String) ≠ "1" :=
  (merge_datasets_cardinality ruesW zascaW).2 "7" (by decide)

/-! ## Theorems for `create_address_batches` / `_compile_results` (C6) -/

/-- Flattening the chunks of a list restores the list. -/
theorem chunkFuel_flatten {α : Type} (bs : Nat) (hbs : bs ≠ 0) :
    ∀ (fuel : Nat) (l : List α), l.length ≤ fuel → (chunkFuel bs fuel l).flatten = l := by
  intro fuel
  induction fuel with
  | zero =>
    intro l hl
    cases l with
    | nil => rfl
    | cons a rest => simp at hl
  | succ n ih =>
    intro l hl
    cases l with
    | nil => rfl
    | cons a rest =>
      rw [chunkFuel, List.flatten_cons, ih (List.drop bs (a :: rest)) ?_,
        List.take_append_drop]
      simp only [List.length_drop, List.length_cons]
      simp only [List.length_cons] at hl
      omega

/-- Key membership after a Python dict assignment. -/
theorem dictInsert_mem_keys (k v x : String) :
    ∀ d : List (String × String), (x ∈ keysOf (dictInsert k v d) ↔ x = k ∨ x ∈ keysOf d) := by
  intro d
  induction d with
  | nil => simp [dictInsert, keysOf]
  | cons p rest ih =>
    rcases p with ⟨k2, v2⟩
    unfold dictInsert
    split
    · rename_i he
      subst he
      simp only [keysOf, List.map_cons, List.mem_cons]
      tauto
    · rename_i he
      simp only [keysOf, List.map_cons, List.mem_cons] at ih ⊢
      constructor
      · rintro (rfl | hx)
        · tauto
        · rcases ih.mp hx with h1 | h1 <;> tauto
      · rintro (rfl | rfl | hx)
        · right
          exact ih.mpr (Or.inl rfl)
        · tauto
        · right
          exact ih.mpr (Or.inr hx)

/-- A Python dict assignment keeps the keys distinct. -/
theorem dictInsert_keys_nodup (k v : String) :
    ∀ d : List (String × String), (keysOf d).Nodup → (keysOf (dictInsert k v d)).Nodup := by
  intro d
  induction d with
  | nil =>
    intro _
    simp [dictInsert, keysOf]
  | cons p rest ih =>
    rcases p with ⟨k2, v2⟩
    intro h
    rw [keysOf, List.map_cons, List.nodup_cons] at h
    unfold dictInsert
    split
    · rw [keysOf, List.map_cons, List.nodup_cons]
      exact h
    · rename_i hne
      rw [keysOf, List.map_cons, List.nodup_cons]
      constructor
      · intro hmem
        rcases (dictInsert_mem_keys k v k2 rest).mp hmem with rfl | hmem2
        · exact hne rfl
        · exact h.1 hmem2
      · exact ih h.2

/-- The dict built by `dict(zip(ids, addrs))` has distinct keys. -/
theorem dictOfPairs_keys_nodup (pairs : List (String × String)) :
    (keysOf (dictOfPairs pairs)).Nodup := by
  have hgen : ∀ (ps : List (String × String)) (d : List (String × String)),
      (keysOf d).Nodup → (keysOf (ps.foldl (fun d p => dictInsert p.1 p.2 d) d)).Nodup := by
    intro ps
    induction ps with
    | nil => intro d h; exact h
    | cons p ps ih =>
      intro d h
      exact ih _ (dictInsert_keys_nodup p.1 p.2 d h)
  exact hgen pairs [] (by simp [keysOf])

/-- Chunks of a list with distinct keys have pairwise disjoint keys. -/
theorem chunks_keys_disjoint (bs : Nat) (l : List (String × String))
    (h : (keysOf l).Nodup) : ((chunkList bs l).map keysOf).Pairwise List.Disjoint := by
  unfold chunkList
  split
  · exact List.Pairwise.nil
  · rename_i hbs
    have h2 : ((chunkFuel bs l.length l).map (List.map Prod.fst)).flatten.Nodup := by
      rw [← List.map_flatten, chunkFuel_flatten bs hbs _ _ (Nat.le_refl _)]
      exact h
    exact (List.nodup_flatten.mp h2).2

/-- C6: every batched address is non-blank, the batches' key lists are
pairwise disjoint (each id is in at most one batch), and every compiled
record stems from a success file whose per-id payload entry is a JSON
object carrying that record's fields. -/
theorem create_batches_compile_contract (hasId : Bool) (rows : List AddrInput) (bs : Nat)
    (files : List BatchFile) :
    (∀ b ∈ create_address_batches hasId rows bs, ∀ p ∈ b,
      pyStrip (Prod.snd (α := String) p).data ≠ []) ∧
    ((create_address_batches hasId rows bs).map keysOf).Pairwise List.Disjoint ∧
    (∀ rec ∈ compile_results files, ∃ f ∈ files, f.success = true ∧
      ∃ entries inputs, f.content = .parsed (.dict entries) inputs ∧
        (rec.id, BatchEntry.dict rec.formatted_address rec.country rec.area rec.city) ∈
          entries) := by
  have hbatches : ∀ b ∈ create_address_batches hasId rows bs, ∀ p ∈ b,
      p ∈ ((dictOfPairs (rows.map fun r => (r.numberid_emp1, r.full_address.getD ""))).filter
        fun p => !(pyStrip p.2.data).isEmpty) := by
    intro b hb p hp
    unfold create_address_batches at hb
    split at hb
    · cases hb
    · unfold chunkList at hb
      split at hb
      · cases hb
      · rename_i hbs
        have hflat : p ∈ (chunkFuel bs (((dictOfPairs (rows.map fun r =>
            (r.numberid_emp1, r.full_address.getD ""))).filter
            fun p => !(pyStrip p.2.data).isEmpty).length)
            ((dictOfPairs (rows.map fun r => (r.numberid_emp1, r.full_address.getD ""))).filter
            fun p => !(pyStrip p.2.data).isEmpty)).flatten :=
          List.mem_flatten.mpr ⟨b, hb, hp⟩
        rwa [chunkFuel_flatten bs hbs _ _ (Nat.le_refl _)] at hflat
  refine ⟨?_, ?_, ?_⟩
  · intro b hb p hp
    have := hbatches b hb p hp
    rw [List.mem_filter] at this
    have h2 := this.2
    simp only [Bool.not_eq_true', ← Bool.not_eq_true] at h2
    intro hnil
    apply h2
    rw [hnil]
    rfl
  · unfold create_address_batches
    split
    · exact List.Pairwise.nil
    · refine chunks_keys_disjoint bs _ ?_
      have hsub : List.Sublist
          ((dictOfPairs (rows.map fun r => (r.numberid_emp1, r.full_address.getD ""))).filter
            fun p => !(pyStrip p.2.data).isEmpty)
          (dictOfPairs (rows.map fun r => (r.numberid_emp1, r.full_address.getD ""))) :=
        List.filter_sublist _
      exact List.Nodup.sublist (hsub.map Prod.fst) (dictOfPairs_keys_nodup _)
  · intro rec hrec
    unfold compile_results at hrec
    rw [List.mem_flatMap] at hrec
    obtain ⟨f, hf, hrecf⟩ := hrec
    rw [List.mem_filter] at hf
    refine ⟨f, hf.1, hf.2, ?_⟩
    rcases hcon : f.content with _ | ⟨resp, inputs⟩
    · rw [hcon] at hrecf
      cases hrecf
    · rcases resp with _ | entries
      · rw [hcon] at hrecf
        cases hrecf
      · rw [hcon] at hrecf
        rw [List.mem_flatMap] at hrecf
        obtain ⟨pe, hpe, hrec2⟩ := hrecf
        rcases hpe2 : pe.2 with ⟨fa, co, ar, ci⟩ | _
        · rw [hpe2] at hrec2
          rw [List.mem_singleton] at hrec2
          subst hrec2
          refine ⟨entries, inputs, rfl, ?_⟩
          have : (pe.1, pe.2) ∈ entries := hpe
          rw [hpe2] at this
          exact this
        · rw [hpe2] at hrec2
          cases hrec2

/-- Witness for C6 at concrete inputs: a blank address is dropped before
batching and a compiled record traces back to its success file. -/
theorem create_batches_compile_contract_witness :
    pyStrip ("Calle 1" : String).data ≠ [] ∧
    (∃ f ∈ filesW, f.success = true ∧ ∃ entries inputs,
      f.content = .parsed (.dict entries) inputs ∧
      (recW.id, BatchEntry.dict recW.formatted_address recW.country recW.area recW.city) ∈
        entries) := by
  constructor
  · exact (create_batches_compile_contract true [⟨"a", some "Calle 1"⟩, ⟨"b", some " "⟩] 25
      filesW).1 [("a", "Calle 1")] (by decide) ("a", "Calle 1") (by decide)
  · exact (create_batches_compile_contract true [⟨"a", some "Calle 1"⟩, ⟨"b", some " "⟩] 25
      filesW).2.2 recW (by decide)

/-! ## Theorems for `AddressProcessor.process_addresses` (C7) -/

/-- C7: `process_addresses` returns `None` (and does not raise) when the
API key is absent, and raises a `ValueError` when the `full_address`
column is still missing after dataset-specific adaptation. -/
theorem process_addresses_contract {α : Type} (ds : Dataset) (cols : List String)
    (compiled : Option α) :
    process_addresses none ds cols compiled = .ok none ∧
    (∀ key, "full_address" ∉ adaptColumns ds cols →
      process_addresses (some key) ds cols compiled =
        .error "missing full_address column in input data") := by
  constructor
  · rfl
  · intro key h
    unfold process_addresses
    rw [if_neg h]

/-- Witness for C7: a ZASCA frame without `full_address` raises. -/
theorem process_addresses_contract_witness :
    process_addresses (some "key") Dataset.zasca ["direccion"] (none : Option Nat) =
      .error "missing full_address column in input data" :=
  (process_addresses_contract Dataset.zasca ["direccion"] none).2 "key" (by decide)

/-! ## Theorems for the control-unit assignment (C1) -/

/-- C1 counterexample: running center assignment and cohort backfill on
a table whose only row is a control unit with an industry code in no
center's top-3 list (here: no participants at all) leaves both `centro`
and `yearcohort` null. -/
theorem record_linker_null_centro_counterexample :
    ((assign_yearcohorts (assign_control_centros tC1 (get_centro_ciiu_mapping tC1))).map
      fun r => (r.centro, r.yearcohort)) = [(none, none)] := by
  rfl

/-- One loop iteration never loses an already-found closest center. -/
theorem centroStep_preserves_some (loc : Option ℝ × Option ℝ) (ciiu : Option Int)
    (mapping : List (String × List Int)) (acc : Option (String × ℝ) × List (String × Option ℝ))
    (c : String × ℝ × ℝ) (h : acc.1.isSome) : ((centroStep loc ciiu mapping acc c).1).isSome := by
  unfold centroStep
  split
  · exact h
  · split
    · split
      · exact h
      · split
        · rfl
        · split <;> rfl
    · exact h

/-- The loop never loses an already-found closest center. -/
theorem foldl_centroStep_preserves (loc : Option ℝ × Option ℝ) (ciiu : Option Int)
    (mapping : List (String × List Int)) :
    ∀ (l : List (String × ℝ × ℝ)) (acc : Option (String × ℝ) × List (String × Option ℝ)),
      acc.1.isSome → ((l.foldl (centroStep loc ciiu mapping) acc).1).isSome := by
  intro l
  induction l with
  | nil => intro acc h; exact h
  | cons c cs ih =>
    intro acc h
    rw [List.foldl_cons]
    exact ih _ (centroStep_preserves_some loc ciiu mapping acc c h)

/-- With both coordinates present, the loop finds some center as soon
as one center's (nonempty) top-code list contains the business code. -/
theorem foldl_centroStep_some_of_match (la lo : ℝ) (ciiu : Option Int)
    (mapping : List (String × List Int)) :
    ∀ (l : List (String × ℝ × ℝ)) (acc : Option (String × ℝ) × List (String × Option ℝ)),
      (∃ c ∈ l, ciiuMatches ciiu (assocGetD mapping c.1 []) = true) →
      ((l.foldl (centroStep (some la, some lo) ciiu mapping) acc).1).isSome := by
  intro l
  induction l with
  | nil =>
    rintro acc ⟨c, hc, _⟩
    cases hc
  | cons c cs ih =>
    rintro acc ⟨c0, hc0, hm⟩
    rcases List.mem_cons.mp hc0 with rfl | hmem
    · rw [List.foldl_cons]
      apply foldl_centroStep_preserves
      unfold centroStep
      have hne : assocGetD mapping c0.1 [] ≠ [] := by
        intro hemp
        rw [hemp] at hm
        cases ciiu with
        | none => simp [ciiuMatches] at hm
        | some cv => simp [ciiuMatches] at hm
      rw [if_neg hne, if_pos hm]
      split
      · rename_i hnone
        simp [optDistance] at hnone
      · split
        · rfl
        · split <;> rfl
    · rw [List.foldl_cons]
      exact ih _ ⟨c0, hmem, hm⟩

/-- With a concrete row index, the special Manrique/Medellín handling
returns some center whenever the loop found one. -/
theorem fcFinish_isSome (res : Option (String × ℝ) × List (String × Option ℝ)) (i : Nat)
    (h : res.1.isSome) : (fcFinish res (some i)).isSome := by
  obtain ⟨p, hp⟩ := Option.isSome_iff_exists.mp h
  unfold fcFinish
  split
  · split
    · split
      · split <;> rfl
      · rename_i heq
        exact absurd heq (by simp)
    · rw [hp]
      rfl
  · rw [hp]
    rfl

/-- A control unit with coordinates and a CIIU code in some center's
top-3 list is assigned a center. -/
theorem find_closest_some (la lo : ℝ) (ciiu : Option Int) (mapping : List (String × List Int))
    (i : Nat)
    (h : ∃ c ∈ centros_zasca, ciiuMatches ciiu (assocGetD mapping c.1 []) = true) :
    (find_closest_centro_with_ciiu_match (some la, some lo) ciiu mapping (some i)).isSome := by
  unfold find_closest_centro_with_ciiu_match
  exact fcFinish_isSome _ i (foldl_centroStep_some_of_match la lo ciiu mapping centros_zasca _ h)

/-- Association lookup over a keyed map of a key list. -/
theorem assocFind_map_of_mem {β : Type} (f : String → β) :
    ∀ (ks : List String) (c : String), c ∈ ks →
      assocFind (ks.map fun k => (k, f k)) c = some (f c) := by
  intro ks
  induction ks with
  | nil =>
    intro c hc
    cases hc
  | cons k ks ih =>
    intro c hc
    rw [List.map_cons]
    unfold assocFind
    split
    · rename_i heq
      rw [heq]
    · rename_i hne
      rcases List.mem_cons.mp hc with rfl | hmem
      · exact absurd rfl hne
      · exact ih c hmem

/-- Membership is preserved into the first-appearance distinct list. -/
theorem mem_distinctFirstStr (x : String) :
    ∀ (l : List String), x ∈ l → x ∈ distinctFirstStr l := by
  have hgen : ∀ (l acc : List String), x ∈ acc ∨ x ∈ l →
      x ∈ l.foldl (fun acc v => if v ∈ acc then acc else acc ++ [v]) acc := by
    intro l
    induction l with
    | nil =>
      rintro acc (h | h)
      · exact h
      · cases h
    | cons v vs ih =>
      rintro acc (h | h)
      · rw [List.foldl_cons]
        apply ih
        left
        split
        · exact h
        · exact List.mem_append_left _ h
      · rcases List.mem_cons.mp h with rfl | hmem
        · rw [List.foldl_cons]
          apply ih
          left
          split
          · assumption
          · exact List.mem_append_right _ (List.mem_singleton.mpr rfl)
        · rw [List.foldl_cons]
          exact ih _ (Or.inr hmem)
  intro l hl
  exact hgen l [] (Or.inr hl)

/-- A fold of `min` starting from a present value stays present. -/
theorem listMinInt_isSome (l : List Int) (hne : l ≠ []) : (listMinInt l).isSome := by
  have hgen : ∀ (xs : List Int) (acc : Option Int), acc.isSome →
      (xs.foldl (fun acc v =>
        match acc with
        | none => some v
        | some m => some (min m v)) acc).isSome := by
    intro xs
    induction xs with
    | nil => intro acc h; exact h
    | cons v vs ih =>
      intro acc h
      rw [List.foldl_cons]
      apply ih
      obtain ⟨m, hm⟩ := Option.isSome_iff_exists.mp h
      rw [hm]
      rfl
  cases l with
  | nil => exact absurd rfl hne
  | cons x xs =>
    unfold listMinInt
    rw [List.foldl_cons]
    exact hgen xs (some x) rfl

/-- C1 amended: the assignment functions keep treated rows unchanged;
a control unit's `centro` becomes exactly the closest CIIU-matching
center, which is non-null whenever its coordinates are present and its
industry code is in some center's top-3 list; `yearcohort` is
backfilled (non-null) for every row whose center has at least one row
with a non-null cohort; control units matching no center's list keep a
null `centro` (and hence a null `yearcohort`), as the counterexample
shows. -/
theorem assign_functions_amended (rows : List DRow) (mapping : List (String × List Int)) :
    (assign_control_centros rows mapping).length = rows.length ∧
    (∀ (i : Nat) (r r2 : DRow), rows[i]? = some r →
      (assign_control_centros rows mapping)[i]? = some r2 →
      (r.centro.isSome → r2 = r) ∧
      (r.centro = none → r2.centro = find_closest_centro_with_ciiu_match
        (r.latitude, r.longitude) r.ciiu_principal_2023 mapping (some i)) ∧
      (r.centro = none → ∀ la lo, r.latitude = some la → r.longitude = some lo →
        (∃ c ∈ centros_zasca,
          ciiuMatches r.ciiu_principal_2023 (assocGetD mapping c.1 []) = true) →
        r2.centro.isSome)) ∧
    (∀ (rows2 : List DRow) (i : Nat) (r r2 : DRow), rows2[i]? = some r →
      (assign_yearcohorts rows2)[i]? = some r2 →
      (r.yearcohort.isSome → r2 = r) ∧
      (r.yearcohort = none → ∀ c, r.centro = some c →
        (∃ rp ∈ rows2, rp.centro = some c ∧ rp.yearcohort.isSome) →
        r2.yearcohort.isSome)) := by
  refine ⟨?_, ?_, ?_⟩
  · unfold assign_control_centros
    rw [List.length_map, List.enum_length]
  · intro i r r2 hr hr2
    unfold assign_control_centros at hr2
    rw [List.getElem?_map, List.getElem?_enum, hr] at hr2
    simp only [Option.map_some'] at hr2
    injection hr2 with hf
    refine ⟨?_, ?_, ?_⟩
    · intro hs
      rw [← hf]
      have : r.centro.isNone = false := by
        obtain ⟨v, hv⟩ := Option.isSome_iff_exists.mp hs
        rw [hv]
        rfl
      simp only [this]
      rfl
    · intro hnone
      rw [← hf]
      simp only [hnone]
      rfl
    · intro hnone la lo hla hlo hex
      have h2 : r2.centro = find_closest_centro_with_ciiu_match
          (r.latitude, r.longitude) r.ciiu_principal_2023 mapping (some i) := by
        rw [← hf]
        simp only [hnone]
        rfl
      rw [h2, hla, hlo]
      exact find_closest_some la lo r.ciiu_principal_2023 mapping i hex
  · intro rows2 i r r2 hr hr2
    unfold assign_yearcohorts at hr2
    rw [List.getElem?_map, hr] at hr2
    simp only [Option.map_some'] at hr2
    injection hr2 with hf
    constructor
    · intro hs
      rw [← hf]
      have : r.yearcohort.isNone = false := by
        obtain ⟨v, hv⟩ := Option.isSome_iff_exists.mp hs
        rw [hv]
        rfl
      simp only [this]
      rfl
    · intro hnone c hc hex
      obtain ⟨rp, hrp, hcp, hyp⟩ := hex
      have hy2 : r2.yearcohort =
          (assocFind (centro_yearcohort_mapping rows2) c).getD none := by
        rw [← hf]
        simp only [hnone, hc]
        rfl
      have hcmem : c ∈ distinctFirstStr (rows2.filterMap DRow.centro) :=
        mem_distinctFirstStr c _ (List.mem_filterMap.mpr ⟨rp, hrp, hcp⟩)
      have hfind : assocFind (centro_yearcohort_mapping rows2) c =
          some (listMinInt ((rows2.filter fun r => r.centro == some c).filterMap
            DRow.yearcohort)) := by
        unfold centro_yearcohort_mapping
        exact assocFind_map_of_mem _ _ c hcmem
      obtain ⟨y, hy⟩ := Option.isSome_iff_exists.mp hyp
      have hymem : y ∈ (rows2.filter fun r => r.centro == some c).filterMap DRow.yearcohort := by
        apply List.mem_filterMap.mpr
        refine ⟨rp, ?_, hy⟩
        apply List.mem_filter.mpr
        refine ⟨hrp, ?_⟩
        rw [hcp]
        exact beq_self_eq_true _
      have hne : (rows2.filter fun r => r.centro == some c).filterMap DRow.yearcohort ≠ [] := by
        intro hnil
        rw [hnil] at hymem
        cases hymem
      rw [hy2, hfind]
      exact listMinInt_isSome _ hne

/-- Witness for the amended C1 on `rowsC1`: the control unit (industry
1410, coordinates present) is assigned centro "Suba" by
`assign_control_centros`, and `assign_yearcohorts` backfills cohort 2022
from Suba's participant. -/
theorem assign_functions_amended_witness :
    (Option.some "Suba").isSome = true ∧ (Option.some (2022 : Int)).isSome = true := by
  constructor
  · have h := ((assign_functions_amended rowsC1 (get_centro_ciiu_mapping rowsC1)).2.1 1
      ⟨"c1", some "addr c", some 4.6, some (-74.1), some "Bogota", some 1410, none, none, none⟩
      ⟨"c1", some "addr c", some 4.6, some (-74.1), some "Bogota", some 1410, some "Suba",
        none, none⟩
      rfl rfl).2.2 rfl 4.6 (-74.1) rfl rfl
      ⟨("Suba", 4.7461323779336295, -74.08267727408058), by simp [centros_zasca], by rfl⟩
    exact h
  · have h := ((assign_functions_amended rowsC1 (get_centro_ciiu_mapping rowsC1)).2.2
      (assign_control_centros rowsC1 (get_centro_ciiu_mapping rowsC1)) 1
      ⟨"c1", some "addr c", some 4.6, some (-74.1), some "Bogota", some 1410, some "Suba",
        none, none⟩
      ⟨"c1", some "addr c", some 4.6, some (-74.1), some "Bogota", some 1410, some "Suba",
        some 2022, none⟩
      rfl rfl).2 rfl "Suba" rfl
      ⟨⟨"p1", some "addr p", some 4.74, some (-74.08), some "Bogota", some 1410, some "Suba",
        some 2022, some 10⟩,
       by
        rw [show assign_control_centros rowsC1 (get_centro_ciiu_mapping rowsC1) =
          [⟨"p1", some "addr p", some 4.74, some (-74.08), some "Bogota", some 1410,
            some "Suba", some 2022, some 10⟩,
           ⟨"c1", some "addr c", some 4.6, some (-74.1), some "Bogota", some 1410,
            some "Suba", none, none⟩] from rfl]
        exact List.mem_cons_self _ _,
       rfl, rfl⟩
    exact h

/-! ## Theorems for `clean_json_response` (C8) -/

/-- `leadTicks` of a backtick-headed list. -/
theorem leadTicks_tick (t : List Char) : leadTicks (tick :: t) = leadTicks t + 1 := by
  simp [leadTicks]

/-- `leadTicks` of a non-backtick-headed list. -/
theorem leadTicks_not_tick (c : Char) (t : List Char) (h : c ≠ tick) :
    leadTicks (c :: t) = 0 := by
  simp [leadTicks, h]

/-- The leading-backtick run is no longer than the list. -/
theorem leadTicks_le_length : ∀ l : List Char, leadTicks l ≤ l.length := by
  intro l
  induction l with
  | nil => simp [leadTicks]
  | cons c t ih =>
    simp only [leadTicks, List.length_cons]
    split
    · omega
    · omega

/-- A leading run of two backticks exposes the first two elements. -/
theorem leadTicks_ge_two (l : List Char) (h : 2 ≤ leadTicks l) :
    ∃ t, l = tick :: tick :: t := by
  cases l with
  | nil => simp [leadTicks] at h
  | cons c t =>
    by_cases hc : c = tick
    · subst hc
      rw [leadTicks_tick] at h
      cases t with
      | nil => simp [leadTicks] at h
      | cons d t2 =>
        by_cases hd : d = tick
        · subst hd
          exact ⟨t2, rfl⟩
        · rw [leadTicks_not_tick d t2 hd] at h
          omega
    · rw [leadTicks_not_tick c t hc] at h
      omega

/-- Cons characterization of `NoTriple`. -/
theorem noTriple_cons (x : Char) (l : List Char) :
    NoTriple (x :: l) ↔ NoTriple l ∧ (x = tick → leadTicks l < 2) := by
  constructor
  · intro h
    constructor
    · intro u v heq
      exact h (x :: u) v (by rw [heq]; rfl)
    · intro hx
      by_contra hge
      push_neg at hge
      obtain ⟨t, ht⟩ := leadTicks_ge_two l hge
      exact h [] t (by rw [hx, ht]; rfl)
  · rintro ⟨hl, hx⟩ u v heq
    cases u with
    | nil =>
      injection heq with h1 h2
      have := hx h1
      rw [h2, leadTicks_tick, leadTicks_tick] at this
      omega
    | cons a u2 =>
      injection heq with h1 h2
      exact hl u2 v h2

/-- `NoTriple` passes to the tail. -/
theorem noTriple_tail (x : Char) (l : List Char) (h : NoTriple (x :: l)) : NoTriple l :=
  ((noTriple_cons x l).mp h).1

/-- Short lists trivially avoid triples. -/
theorem noTriple_short (l : List Char) (h : l.length ≤ 2) : NoTriple l := by
  intro u v heq
  have hlen := congrArg List.length heq
  simp [List.length_append] at hlen
  omega

/-- The left-to-right removal of every "```" occurrence leaves no three
consecutive backticks, and reduces the leading run modulo 3. -/
theorem stripFence_spec : ∀ l : List Char,
    NoTriple (stripFence l) ∧ leadTicks (stripFence l) = leadTicks l % 3 := by
  intro l
  induction l using stripFence.induct with
  | case1 a b c t h ih =>
    obtain ⟨rfl, rfl, rfl⟩ := h
    have hs : stripFence (tick :: tick :: tick :: t) = stripFence t := by
      simp [stripFence]
    refine ⟨by rw [hs]; exact ih.1, ?_⟩
    rw [hs, ih.2, leadTicks_tick, leadTicks_tick, leadTicks_tick]
    omega
  | case2 a b c t h ih =>
    have hs : stripFence (a :: b :: c :: t) = a :: stripFence (b :: c :: t) := by
      simp only [stripFence, if_neg h]
    by_cases ha : a = tick
    · subst ha
      have hbc : ¬(b = tick ∧ c = tick) := fun hp => h ⟨rfl, hp.1, hp.2⟩
      have hlead : leadTicks (b :: c :: t) < 2 := by
        by_cases hb : b = tick
        · subst hb
          have hc : c ≠ tick := fun hcc => hbc ⟨rfl, hcc⟩
          rw [leadTicks_tick, leadTicks_not_tick c t hc]
          omega
        · rw [leadTicks_not_tick b (c :: t) hb]
          omega
      have hX : leadTicks (stripFence (b :: c :: t)) = leadTicks (b :: c :: t) := by
        rw [ih.2]
        omega
      constructor
      · rw [hs, noTriple_cons]
        exact ⟨ih.1, fun _ => by rw [hX]; exact hlead⟩
      · rw [hs, leadTicks_tick, hX, leadTicks_tick]
        omega
    · constructor
      · rw [hs, noTriple_cons]
        exact ⟨ih.1, fun hh => absurd hh ha⟩
      · rw [hs, leadTicks_not_tick a _ ha, leadTicks_not_tick a _ ha]
  | case3 l h =>
    have hl2 : l.length ≤ 2 := by
      rcases l with _ | ⟨a, _ | ⟨b, _ | ⟨c, t⟩⟩⟩
      · simp
      · simp
      · simp
      · exact ((h a b c t rfl).elim)
    have hs : stripFence l = l := by
      rcases l with _ | ⟨a, _ | ⟨b, _ | ⟨c, t⟩⟩⟩
      · rfl
      · rfl
      · rfl
      · exact ((h a b c t rfl).elim)
    have hlt := leadTicks_le_length l
    refine ⟨by rw [hs]; exact noTriple_short l hl2, ?_⟩
    rw [hs]
    omega

/-- On a triple-free list, removing "```json" changes nothing. -/
theorem stripJsonFence_fix : ∀ l : List Char, NoTriple l → stripJsonFence l = l := by
  intro l
  induction l using stripJsonFence.induct with
  | case1 a b c d e f g t h ih =>
    intro hNT
    obtain ⟨rfl, rfl, rfl, rfl, rfl, rfl, rfl⟩ := h
    exact ((hNT [] ('j' :: 's' :: 'o' :: 'n' :: t) rfl).elim)
  | case2 a b c d e f g t h ih =>
    intro hNT
    simp only [stripJsonFence, if_neg h]
    rw [ih (noTriple_tail _ _ hNT)]
  | case3 l h =>
    intro _
    rcases l with _ | ⟨a, _ | ⟨b, _ | ⟨c, _ | ⟨d, _ | ⟨e, _ | ⟨f, _ | ⟨g, t⟩⟩⟩⟩⟩⟩⟩
    · rfl
    · rfl
    · rfl
    · rfl
    · rfl
    · rfl
    · rfl
    · exact ((h a b c d e f g t rfl).elim)

/-- On a triple-free list, removing "```" changes nothing. -/
theorem stripFence_fix : ∀ l : List Char, NoTriple l → stripFence l = l := by
  intro l
  induction l using stripFence.induct with
  | case1 a b c t h ih =>
    intro hNT
    obtain ⟨rfl, rfl, rfl⟩ := h
    exact ((hNT [] t rfl).elim)
  | case2 a b c t h ih =>
    intro hNT
    simp only [stripFence, if_neg h]
    rw [ih (noTriple_tail _ _ hNT)]
  | case3 l h =>
    intro _
    rcases l with _ | ⟨a, _ | ⟨b, _ | ⟨c, t⟩⟩⟩
    · rfl
    · rfl
    · rfl
    · exact ((h a b c t rfl).elim)

/-- `NoTriple` is preserved by `dropWhile`. -/
theorem noTriple_dropWhile (p : Char → Bool) :
    ∀ l : List Char, NoTriple l → NoTriple (l.dropWhile p) := by
  intro l
  induction l with
  | nil => intro h; exact h
  | cons c t ih =>
    intro h
    rw [List.dropWhile_cons]
    split
    · exact ih (noTriple_tail _ _ h)
    · exact h

/-- `dropTrailingWs` returns a prefix of its input. -/
theorem dropTrailingWs_prefix : ∀ l : List Char, ∃ t, l = dropTrailingWs l ++ t := by
  intro l
  induction l using dropTrailingWs.induct with
  | case1 => exact ⟨[], rfl⟩
  | case2 c cs h hws ih =>
    refine ⟨c :: cs, ?_⟩
    have e : dropTrailingWs (c :: cs) = [] := by
      simp [dropTrailingWs, h, hws]
    rw [e]
    rfl
  | case3 c cs h hws ih =>
    refine ⟨cs, ?_⟩
    have e : dropTrailingWs (c :: cs) = [c] := by
      simp [dropTrailingWs, h, hws]
    rw [e]
    rfl
  | case4 c cs h ih =>
    cases hr : dropTrailingWs cs with
    | nil => exact ((h hr).elim)
    | cons r rs =>
      obtain ⟨t0, ht0⟩ := ih
      have e : dropTrailingWs (c :: cs) = c :: r :: rs := by
        simp [dropTrailingWs, hr]
      refine ⟨t0, ?_⟩
      rw [e]
      rw [hr] at ht0
      rw [List.cons_append]
      rw [← ht0]

/-- `NoTriple` is preserved by taking a prefix. -/
theorem noTriple_prefix (l t : List Char) (h : NoTriple (l ++ t)) : NoTriple l := by
  intro u v heq
  exact h u (v ++ t) (by rw [heq]; simp)

/-- The head of a nonempty `dropTrailingWs` is the head of the input. -/
theorem dropTrailingWs_head (c : Char) (rest : List Char) :
    dropTrailingWs (c :: rest) = [] ∨ ∃ t2, dropTrailingWs (c :: rest) = c :: t2 := by
  cases hr : dropTrailingWs rest with
  | nil =>
    by_cases hws : c.isWhitespace
    · left
      simp [dropTrailingWs, hr, hws]
    · right
      exact ⟨[], by simp [dropTrailingWs, hr, hws]⟩
  | cons r rs =>
    right
    exact ⟨r :: rs, by simp [dropTrailingWs, hr]⟩

/-- The head surviving `dropWhile` fails the predicate. -/
theorem dropWhile_head_false (p : Char → Bool) :
    ∀ (l : List Char) (c : Char) (t : List Char), l.dropWhile p = c :: t → p c = false := by
  intro l
  induction l with
  | nil =>
    intro c t h
    cases h
  | cons a l2 ih =>
    intro c t h
    rw [List.dropWhile_cons] at h
    split at h
    · exact ih c t h
    · rename_i hpa
      injection h with h1 _
      rw [← h1]
      exact Bool.not_eq_true _ |>.mp hpa

/-- `dropTrailingWs` is idempotent. -/
theorem dropTrailingWs_idem : ∀ l : List Char, dropTrailingWs (dropTrailingWs l) = dropTrailingWs l := by
  intro l
  induction l using dropTrailingWs.induct with
  | case1 => rfl
  | case2 c cs h hws ih =>
    have e : dropTrailingWs (c :: cs) = [] := by
      simp [dropTrailingWs, h, hws]
    rw [e]
    rfl
  | case3 c cs h hws ih =>
    have e : dropTrailingWs (c :: cs) = [c] := by
      simp [dropTrailingWs, h, hws]
    rw [e]
    simp [dropTrailingWs, hws]
  | case4 c cs h ih =>
    cases hr : dropTrailingWs cs with
    | nil => exact ((h hr).elim)
    | cons r rs =>
      have e : dropTrailingWs (c :: cs) = c :: r :: rs := by
        simp [dropTrailingWs, hr]
      rw [e]
      rw [hr] at ih
      calc dropTrailingWs (c :: r :: rs)
          = (match dropTrailingWs (r :: rs) with
             | [] => if c.isWhitespace = true then [] else [c]
             | q => c :: q) := rfl
        _ = c :: r :: rs := by rw [ih]

/-- `pyStrip` is a fixed point on its own outputs. -/
theorem pyStrip_idem : ∀ l : List Char, pyStrip (pyStrip l) = pyStrip l := by
  intro l
  unfold pyStrip dropLeadingWs
  have hw : List.dropWhile Char.isWhitespace
      (dropTrailingWs (List.dropWhile Char.isWhitespace l)) =
      dropTrailingWs (List.dropWhile Char.isWhitespace l) := by
    cases hd : dropTrailingWs (List.dropWhile Char.isWhitespace l) with
    | nil => rfl
    | cons c t2 =>
      have hcfalse : c.isWhitespace = false := by
        cases hw0 : List.dropWhile Char.isWhitespace l with
        | nil =>
          rw [hw0] at hd
          cases hd
        | cons cw tw =>
          rw [hw0] at hd
          rcases dropTrailingWs_head cw tw with h0 | ⟨t3, h3⟩
          · rw [h0] at hd
            cases hd
          · rw [h3] at hd
            injection hd with hc _
            rw [← hc]
            exact dropWhile_head_false Char.isWhitespace l cw tw hw0
      rw [List.dropWhile_cons, hcfalse]
      simp
  rw [hw, dropTrailingWs_idem]

/-- C8: `clean_json_response` is idempotent on every string it accepts,
and every accepted string passes the JSON-validity check (rejected
inputs produce an error instead). -/
theorem clean_json_response_idempotent (s t : String)
    (h : clean_json_response s = .ok t) :
    clean_json_response t = .ok t ∧ isValidJson t.data = true := by
  unfold clean_json_response at h
  split at h
  · rename_i hvalid
    injection h with h2
    have hNT : NoTriple (pyStrip (stripFence (stripJsonFence s.data))) := by
      have h1 : NoTriple (stripFence (stripJsonFence s.data)) :=
        (stripFence_spec (stripJsonFence s.data)).1
      have h2b : NoTriple (dropLeadingWs (stripFence (stripJsonFence s.data))) :=
        noTriple_dropWhile _ _ h1
      obtain ⟨tl, htl⟩ := dropTrailingWs_prefix (dropLeadingWs (stripFence (stripJsonFence s.data)))
      rw [htl] at h2b
      exact noTriple_prefix _ _ h2b
    have hdata : t.data = pyStrip (stripFence (stripJsonFence s.data)) := by
      rw [← h2]
    constructor
    · unfold clean_json_response
      rw [hdata, stripJsonFence_fix _ hNT, stripFence_fix _ hNT, pyStrip_idem]
      rw [if_pos hvalid]
      rw [← h2]
    · rw [hdata]
      exact hvalid
  · cases h

/-- Witness for C8 on a fenced JSON reply. -/
theorem clean_json_response_idempotent_witness :
    clean_json_response "```json[1, 2]```" = .ok "[1, 2]" ∧
    (clean_json_response "[1, 2]" = .ok "[1, 2]" ∧
      isValidJson ("[1, 2]" : String).data = true) := by
  have h1 : clean_json_response "```json[1, 2]```" = .ok "[1, 2]" := rfl
  exact ⟨h1, clean_json_response_idempotent "```json[1, 2]```" "[1, 2]" h1⟩
